import Mathlib

/-!
Shallow embedding of `twistedcaldav/scheduling/icaldiff.py` (class `iCalDiff`):
the calendar diff engine that decides whether two calendar documents differ in
scheduling-relevant ways, and whether an attendee's submitted copy changes
anything beyond that attendee's own ATTENDEE property.

The document object model (`twistedcaldav.ical.Component`) and the scheduling
message normalizer (`iTipGenerator.prepareSchedulingMessage`) are external to
the source file; they are modelled from the specification where their concrete
behaviour matters, and taken as function parameters where the specification
leaves them abstract.
-/

namespace CalDiff

/-- Property of a calendar component: a name, a value and parameters.
Equality is structural (same name, value and parameters), the unit used by the
source's set-difference operations. -/
structure Property where
  name : String
  value : String
  params : List (String × String)
deriving DecidableEq

/-- Component of a calendar: a type name, an ordered list of properties and a
list of nested components. -/
inductive Component where
  | mk (name : String) (props : List Property) (subs : List Component)

/-- Type name of a component. -/
def Component.name : Component → String
  | .mk n _ _ => n

/-- Properties of a component. -/
def Component.props : Component → List Property
  | .mk _ ps _ => ps

/-- Nested subcomponents of a component. -/
def Component.subs : Component → List Component
  | .mk _ _ ss => ss

/-- Calendar document: top-level properties plus components. -/
structure Calendar where
  props : List Property
  comps : List Component

/-- Modelled from the spec: object-model accessor returning the value of the
first property with the given name, none when the component has no such
property. -/
def Component.propertyValue (c : Component) (n : String) : Option String :=
  (c.props.find? (fun p => p.name == n)).map (fun p => p.value)

/-- Modelled from the spec: the recurrence identifier of a component,
normalized to an absolute (UTC) instant; none for a series master.  The object
model's UTC normalization is external, so recorded values are taken as already
normalized. -/
def Component.getRecurrenceIDUTC (c : Component) : Option String :=
  c.propertyValue "RECURRENCE-ID"

mutual

/-- Modelled from the spec: structural equality of two components is set-based
over their properties and, recursively, their subcomponents, regardless of
serialization order (external `Component.__eq__`). -/
def compEq : Component → Component → Bool
  | .mk n1 p1 s1, .mk n2 p2 s2 =>
    n1 == n2 && p1.all (fun q => decide (q ∈ p2)) && p2.all (fun q => decide (q ∈ p1))
      && compSubset s1 s2 && compSubset s2 s1
termination_by c1 c2 => sizeOf c1 + sizeOf c2
decreasing_by all_goals (simp_wf; try omega)

/-- Every component of the first list is `compEq`-equal to some component of
the second list. -/
def compSubset : List Component → List Component → Bool
  | [], _ => true
  | c :: cs, l => compMem c l && compSubset cs l
termination_by l1 l2 => sizeOf l1 + sizeOf l2
decreasing_by all_goals (simp_wf; try omega)

/-- Membership of a component in a list of components, up to `compEq`. -/
def compMem : Component → List Component → Bool
  | _, [] => false
  | c, d :: ds => compEq c d || compMem c ds
termination_by c l => sizeOf c + sizeOf l
decreasing_by all_goals (simp_wf; try omega)

end

/-- Modelled from the spec: structural equality of two calendar documents is
set-based over their top-level properties and their components. -/
def calEq (a b : Calendar) : Bool :=
  a.props.all (fun q => decide (q ∈ b.props)) && b.props.all (fun q => decide (q ∈ a.props))
    && compSubset a.comps b.comps && compSubset b.comps a.comps

mutual

/-- Modelled from the spec: `removeAlarms` removes every VALARM subcomponent at
every nesting level of the document. -/
def removeAlarmsC : Component → Component
  | .mk n ps ss => .mk n ps (removeAlarmsL ss)
termination_by structural c => c

/-- List version of `removeAlarmsC`: drops VALARM components and recurses into
the rest. -/
def removeAlarmsL : List Component → List Component
  | [] => []
  | c :: cs =>
    if c.name = "VALARM" then removeAlarmsL cs
    else removeAlarmsC c :: removeAlarmsL cs
termination_by structural l => l

end

/-- Modelled from the spec: `removeAlarms` applied to a whole document. -/
def removeAlarms (cal : Calendar) : Calendar :=
  ⟨cal.props, removeAlarmsL cal.comps⟩

/-- Modelled from the spec: a non-standard extension property name, i.e. one
beginning with "X-". -/
def isXName (n : String) : Bool :=
  decide (n.data.take 2 = ['X', '-'])

mutual

/-- Modelled from the spec: `removeXProperties` removes non-standard extension
properties (names beginning with "X-") from the document and every
component. -/
def removeXPropertiesC : Component → Component
  | .mk n ps ss => .mk n (ps.filter (fun p => !(isXName p.name))) (removeXPropertiesL ss)
termination_by structural c => c

/-- List version of `removeXPropertiesC`. -/
def removeXPropertiesL : List Component → List Component
  | [] => []
  | c :: cs => removeXPropertiesC c :: removeXPropertiesL cs
termination_by structural l => l

end

/-- Modelled from the spec: `removeXProperties` applied to a document. -/
def removeXProperties (cal : Calendar) : Calendar :=
  ⟨cal.props.filter (fun p => !(isXName p.name)), removeXPropertiesL cal.comps⟩

mutual

/-- Modelled from the spec: `attendeesView` restricts the document's attendee
list to the given identities, removing from every component each ATTENDEE
property whose value is not one of them. -/
def attendeesViewC (atts : List String) : Component → Component
  | .mk n ps ss =>
    .mk n (ps.filter (fun p => p.name != "ATTENDEE" || decide (p.value ∈ atts)))
      (attendeesViewL atts ss)
termination_by structural c => c

/-- List version of `attendeesViewC`. -/
def attendeesViewL (atts : List String) : List Component → List Component
  | [] => []
  | c :: cs => attendeesViewC atts c :: attendeesViewL atts cs
termination_by structural l => l

end

/-- Modelled from the spec: `attendeesView` applied to a document. -/
def attendeesView (atts : List String) (cal : Calendar) : Calendar :=
  ⟨cal.props, attendeesViewL atts cal.comps⟩

/-- Symmetric difference of two property lists under structural equality,
embedding the source's `set(...) ^ set(...)` on properties. -/
def propSymmDiff (l1 l2 : List Property) : List Property :=
  l1.filter (fun p => decide (p ∉ l2)) ++ l2.filter (fun p => decide (p ∉ l1))

/-- Symmetric difference of two subcomponent lists under the object model's
set-based component equality, embedding `set(...) ^ set(...)` on
subcomponents. -/
def subDiff (s1 s2 : List Component) : List Component :=
  s1.filter (fun c => !(compMem c s2)) ++ s2.filter (fun c => !(compMem c s1))

/-- Property names the component comparator always ignores
(`_testComponents`'s ok-to-change tuple). -/
def volatileNames : List String :=
  ["TRANSP", "DTSTAMP", "CREATED", "LAST-MODIFIED", "SEQUENCE"]

/-- A property whose name is in the volatile ignore list. -/
def isVolatile (p : Property) : Bool :=
  decide (p.name ∈ volatileNames)

/-- A differing property the comparator tolerates: either volatile-named, or
the tested attendee's own ATTENDEE property. -/
def isAllowed (att : String) (p : Property) : Bool :=
  isVolatile p || (p.name == "ATTENDEE" && p.value == att)

/-- The loop body of `_testComponents` over the property difference set:
volatile-named properties are removed from the working set, a non-volatile
property is permitted only when it is the tested attendee's own ATTENDEE
property (and is then kept in the working set), and any other difference fails
(`none`). -/
def scanDiff (att : String) : List Property → Option (List Property)
  | [] => some []
  | p :: rest =>
    if p.name ∈ volatileNames then scanDiff att rest
    else if p.name ≠ "ATTENDEE" ∨ p.value ≠ att then none
    else (scanDiff att rest).map (fun l => p :: l)

/-- Embedding of `iCalDiff._testComponents`: compare two components, permitting
only volatile-property drift and changes to the tested attendee's own ATTENDEE
property.  Returns (no mismatch, attendee made no change). -/
def testComponents (att : String) (c1 c2 : Component) : Bool × Bool :=
  if c1.name ≠ c2.name then (false, false)
  else
    match scanDiff att (propSymmDiff c1.props c2.props) with
    | none => (false, false)
    | some remaining =>
      if !(subDiff c1.subs c2.subs).isEmpty then (false, false)
      else (true, remaining.isEmpty)

/-- Key of a component in `_compareComponents`'s map: (type name, UID,
recurrence identifier). -/
abbrev CompKey := String × Option String × Option String

/-- The (name, uid, rid) key of a component. -/
def compKey (c : Component) : CompKey :=
  (c.name, c.propertyValue "UID", c.getRecurrenceIDUTC)

/-- Insert a binding into an association list with Python-dict overwrite
semantics. -/
def insertKV (m : List (CompKey × Component)) (k : CompKey) (c : Component) :
    List (CompKey × Component) :=
  if m.any (fun e => decide (e.1 = k)) then
    m.map (fun e => if e.1 = k then (k, c) else e)
  else m ++ [(k, c)]

/-- Lookup in the association list (`map2[key]`), none embedding a Python
`KeyError`. -/
def lookupKV (m : List (CompKey × Component)) (k : CompKey) : Option Component :=
  (m.find? (fun e => decide (e.1 = k))).map (fun e => e.2)

/-- Embedding of `mapComponents` inside `_compareComponents`: a map from
(name, uid, rid) to component for every non-VTIMEZONE component. -/
def mapComponents (cal : Calendar) : List (CompKey × Component) :=
  (cal.comps.filter (fun c => c.name ≠ "VTIMEZONE")).foldl
    (fun m c => insertKV m (compKey c) c) []

/-- Keys of a component map. -/
def keysOf (m : List (CompKey × Component)) : List CompKey :=
  m.map (fun e => e.1)

/-- First loop of `_compareComponents`: every component of calendar1 is looked
up by key in calendar2's map and compared; `none` embeds an uncaught
`KeyError`, `some (false, false)` a comparison failure, and `some (true, f)`
success with the accumulated attendee-unchanged flag `f`. -/
def loop1 (att : String) (m2 : List (CompKey × Component)) :
    List (CompKey × Component) → Option (Bool × Bool)
  | [] => some (true, true)
  | e :: rest =>
    match lookupKV m2 e.1 with
    | none => none
    | some c2 =>
      if (testComponents att e.2 c2).1 = false then some (false, false)
      else
        match loop1 att m2 rest with
        | none => none
        | some (r, flag) =>
          if r = false then some (false, false)
          else some (true, (testComponents att e.2 c2).2 && flag)

/-- Second loop of `_compareComponents`: every key only present in calendar2
is derived from calendar1 (`deriveInstance`, an external collaborator passed as
`derive`); a failed derivation fails the comparison, a successful one is
compared like a matched pair. -/
def loop2 (att : String) (derive : Option String → Option Component)
    (m2 : List (CompKey × Component)) : List CompKey → Option (Bool × Bool)
  | [] => some (true, true)
  | k :: rest =>
    match derive k.2.2 with
    | none => some (false, false)
    | some c1 =>
      match lookupKV m2 k with
      | none => none
      | some c2 =>
        if (testComponents att c1 c2).1 = false then some (false, false)
        else
          match loop2 att derive m2 rest with
          | none => none
          | some (r, flag) =>
            if r = false then some (false, false)
            else some (true, (testComponents att c1 c2).2 && flag)

/-- Embedding of `iCalDiff._compareComponents`; `none` embeds an uncaught
exception, otherwise the (no mismatch, attendee unchanged) pair. -/
def compareComponents (derive : Option String → Option Component) (att : String)
    (cal1 cal2 : Calendar) : Option (Bool × Bool) :=
  let m1 := mapComponents cal1
  let m2 := mapComponents cal2
  let set1 := keysOf m1
  let set2 := keysOf m2
  if (set1.filter (fun k => decide (k ∉ set2))) ≠ [] then some (false, false)
  else
    match loop1 att m2 m1 with
    | none => none
    | some (nomis, flag1) =>
      if nomis = false then some (false, false)
      else
        match loop2 att derive m2 (set2.filter (fun k => decide (k ∉ set1))) with
        | none => none
        | some (nomis2, flag2) =>
          if nomis2 = false then some (false, false)
          else some (true, flag1 && flag2)

/-- Embedding of `iCalDiff._checkVCALENDARProperties`: the top-level property
difference must be empty after ignoring PRODID and CALSCALE. -/
def checkVCALENDARProperties (c1 c2 : Calendar) : Bool :=
  ((propSymmDiff c1.props c2.props).filter
    (fun p => decide (p.name ∉ (["PRODID", "CALSCALE"] : List String)))).isEmpty

/-- TZID extraction inside `iCalDiff._compareVTIMEZONEs`. -/
def extractTZIDs (cal : Calendar) : List (Option String) :=
  (cal.comps.filter (fun c => c.name = "VTIMEZONE")).map
    (fun c => c.propertyValue "TZID")

/-- Embedding of `iCalDiff._compareVTIMEZONEs`: the two documents' sets of
VTIMEZONE identifiers must coincide. -/
def compareVTIMEZONEs (c1 c2 : Calendar) : Bool :=
  let t1 := extractTZIDs c1
  let t2 := extractTZIDs c2
  t1.all (fun x => decide (x ∈ t2)) && t2.all (fun x => decide (x ∈ t1))

/-- Embedding of `iCalDiff.organizerDiff`: duplicate both inputs, strip
alarms, and test structural equality. -/
def organizerDiff (cal1 cal2 : Calendar) : Bool :=
  calEq (removeAlarms cal1) (removeAlarms cal2)

/-- Comparison pipeline of `iCalDiff.attendeeMerge` applied to the two
normalized working copies: fast-path equality, then the document-level checks,
then the component matcher. -/
def mergeCompare (deriveF : Calendar → Option String → Option Component)
    (att : String) (n1 n2 : Calendar) : Option (Bool × Bool) :=
  if calEq n1 n2 then some (true, true)
  else if checkVCALENDARProperties n1 n2 = false then some (false, false)
  else if compareVTIMEZONEs n1 n2 = false then some (false, false)
  else compareComponents (deriveF n1) att n1 n2

/-- Embedding of `iCalDiff.attendeeMerge`: normalize private duplicates of the
two documents (extension-property removal, attendee-list restriction of the
organizer's copy, scheduling-message normalization `prep`, an external
collaborator), then run the comparison pipeline. -/
def attendeeMerge (prep : Calendar → Calendar)
    (deriveF : Calendar → Option String → Option Component)
    (att : String) (cal1 cal2 : Calendar) : Option (Bool × Bool) :=
  mergeCompare deriveF att
    (prep (attendeesView [att] (removeXProperties cal1)))
    (prep (removeXProperties cal2))

/-- The matched-pair comparison of `_compareComponents` as a pure function on
a list of component pairs: fail on the first mismatch, otherwise AND together
the attendee-unchanged flags. -/
def runPairs (att : String) : List (Component × Component) → Bool × Bool
  | [] => (true, true)
  | q :: rest =>
    if (testComponents att q.1 q.2).1 = false then (false, false)
    else
      match runPairs att rest with
      | (r, flag) =>
        if r = false then (false, false)
        else (true, (testComponents att q.1 q.2).2 && flag)

/-- Pairs compared by the first loop of `_compareComponents`: each component of
calendar1's map together with the component found under the same key in
calendar2's map. -/
def matchedPairs (m1 m2 : List (CompKey × Component)) : List (Component × Component) :=
  m1.filterMap (fun e => (lookupKV m2 e.1).map (fun c2 => (e.2, c2)))

/-- Pairs compared by the second loop of `_compareComponents`: for each key
only in calendar2, the instance derived from calendar1 together with
calendar2's component. -/
def derivedPairs (derive : Option String → Option Component)
    (m2 : List (CompKey × Component)) (extra : List CompKey) :
    List (Component × Component) :=
  extra.filterMap (fun k =>
    match derive k.2.2, lookupKV m2 k with
    | some c1, some c2 => some (c1, c2)
    | _, _ => none)

/-- A compared pair on which the component comparator reports no mismatch and
no attendee change. -/
def pairClean (att : String) (q : Component × Component) : Bool :=
  (testComponents att q.1 q.2).1 && (testComponents att q.1 q.2).2

/-- Stated from the amended spec sentence for the second result boolean of
`attendeeMerge`: the attendee made no effective change, i.e. the normalized
documents are equal, or the document-level checks pass, calendar1's keys all
appear in calendar2, every extra key is derivable, and every matched or
derived component pair compares completely unchanged. -/
def attendeeUnchangedSpec (prep : Calendar → Calendar)
    (deriveF : Calendar → Option String → Option Component)
    (att : String) (cal1 cal2 : Calendar) : Bool :=
  let n1 := prep (attendeesView [att] (removeXProperties cal1))
  let n2 := prep (removeXProperties cal2)
  let m1 := mapComponents n1
  let m2 := mapComponents n2
  let extra := (keysOf m2).filter (fun k => decide (k ∉ keysOf m1))
  calEq n1 n2 ||
    (checkVCALENDARProperties n1 n2 && compareVTIMEZONEs n1 n2
      && (keysOf m1).all (fun k => decide (k ∈ keysOf m2))
      && extra.all (fun k => (deriveF n1 k.2.2).isSome)
      && (matchedPairs m1 m2).all (pairClean att)
      && (derivedPairs (deriveF n1) m2 extra).all (pairClean att))

mutual

/-- Recursive check that a component is not named VALARM and contains no
VALARM at any nesting level. -/
def alarmFreeC : Component → Bool
  | .mk n _ ss => (n != "VALARM") && alarmFreeL ss
termination_by structural c => c

/-- Recursive check that no component named VALARM occurs at any nesting
level of a list of components. -/
def alarmFreeL : List Component → Bool
  | [] => true
  | c :: cs => alarmFreeC c && alarmFreeL cs
termination_by structural l => l

end

/-- Replace the nth element of a list by its image under `f`. -/
def mapNth (f : α → α) : Nat → List α → List α
  | _, [] => []
  | 0, x :: xs => f x :: xs
  | n + 1, x :: xs => x :: mapNth f n xs

/-- Prepend an extra subcomponent to a component. -/
def addSub (a : Component) : Component → Component
  | .mk n ps ss => .mk n ps (a :: ss)

/-- Add an extra subcomponent (e.g. an alarm) to the i-th component of a
document. -/
def addAlarmTo (cal : Calendar) (i : Nat) (a : Component) : Calendar :=
  ⟨cal.props, mapNth (addSub a) i cal.comps⟩

/-- Heap of calendar objects, modelling Python object identity: the caller's
documents live at indices of this list and in-place mutation is an update at
an index. -/
def hRead : List Calendar → Nat → Calendar
  | [], _ => ⟨[], []⟩
  | c :: _, 0 => c
  | _ :: h, n + 1 => hRead h n

/-- Write a calendar object at an index of the heap. -/
def hWrite : List Calendar → Nat → Calendar → List Calendar
  | [], _, _ => []
  | _ :: h, 0, c => c :: h
  | d :: h, n + 1, c => d :: hWrite h n c

/-- Stateful embedding of `organizerDiff` over the object heap: `duplicate`
allocates a fresh object at the end of the heap and `removeAlarms` mutates the
fresh object in place; the caller's documents are the objects at `r1` and
`r2`. -/
def organizerDiffH (h : List Calendar) (r1 r2 : Nat) : Bool × List Calendar :=
  let d1 := h.length
  let h1 := h ++ [hRead h r1]
  let h2 := hWrite h1 d1 (removeAlarms (hRead h1 d1))
  let d2 := h2.length
  let h3 := h2 ++ [hRead h2 r2]
  let h4 := hWrite h3 d2 (removeAlarms (hRead h3 d2))
  (calEq (hRead h4 d1) (hRead h4 d2), h4)

/-- Stateful embedding of `attendeeMerge` over the object heap: both inputs
are duplicated, every stripping/filtering/normalization step mutates only the
fresh duplicates, and the comparison pipeline then reads the duplicates. -/
def attendeeMergeH (prep : Calendar → Calendar)
    (deriveF : Calendar → Option String → Option Component) (att : String)
    (h : List Calendar) (r1 r2 : Nat) : Option (Bool × Bool) × List Calendar :=
  let d1 := h.length
  let h1 := h ++ [hRead h r1]
  let h2 := hWrite h1 d1 (removeXProperties (hRead h1 d1))
  let h3 := hWrite h2 d1 (attendeesView [att] (hRead h2 d1))
  let h4 := hWrite h3 d1 (prep (hRead h3 d1))
  let d2 := h4.length
  let h5 := h4 ++ [hRead h4 r2]
  let h6 := hWrite h5 d2 (removeXProperties (hRead h5 d2))
  let h7 := hWrite h6 d2 (prep (hRead h6 d2))
  (mergeCompare deriveF att (hRead h7 d1) (hRead h7 d2), h7)

/-! Basic lemmas about the set-based structural equality. -/

theorem compMem_of_mem (c : Component) (l : List Component) (hc : c ∈ l)
    (hr : compEq c c = true) : compMem c l = true := by
  induction l with
  | nil => cases hc
  | cons d ds ih =>
    rcases List.mem_cons.mp hc with h | h
    · subst h
      simp [compMem, hr]
    · simp [compMem, ih h]

theorem compSubset_of_mem (l1 l2 : List Component)
    (h : ∀ c ∈ l1, compMem c l2 = true) : compSubset l1 l2 = true := by
  induction l1 with
  | nil => simp [compSubset]
  | cons c cs ih =>
    simp [compSubset, h c (List.mem_cons_self c cs),
      ih (fun d hd => h d (List.mem_cons_of_mem c hd))]

theorem compEq_refl_aux : ∀ (n : Nat) (c : Component), sizeOf c ≤ n → compEq c c = true := by
  intro n
  induction n using Nat.strong_induction_on with
  | _ n ih =>
    intro c hc
    obtain ⟨nm, ps, ss⟩ := c
    have hsub : ∀ d ∈ ss, compEq d d = true := by
      intro d hd
      have hlt : sizeOf d < sizeOf (Component.mk nm ps ss) := by
        have := List.sizeOf_lt_of_mem hd
        simp only [Component.mk.sizeOf_spec]
        omega
      exact ih (sizeOf d) (by omega) d (le_refl _)
    have hss : compSubset ss ss = true :=
      compSubset_of_mem ss ss (fun d hd => compMem_of_mem d ss hd (hsub d hd))
    rw [compEq]
    simp [hss, List.all_eq_true]

theorem compEq_refl (c : Component) : compEq c c = true :=
  compEq_refl_aux (sizeOf c) c (le_refl _)

theorem compSubset_refl (l : List Component) : compSubset l l = true :=
  compSubset_of_mem l l (fun d hd => compMem_of_mem d l hd (compEq_refl d))

theorem calEq_refl (cal : Calendar) : calEq cal cal = true := by
  simp [calEq, compSubset_refl, List.all_eq_true]

theorem subDiff_self (l : List Component) : subDiff l l = [] := by
  have h : ∀ c ∈ l, compMem c l = true :=
    fun c hc => compMem_of_mem c l hc (compEq_refl c)
  simp only [subDiff, List.append_eq_nil]
  constructor <;>
    (rw [List.filter_eq_nil_iff]; intro c hc; simp [h c hc])

/-! Characterization of the `_testComponents` property loop. -/

theorem scanDiff_none (att : String) (l : List Property) (p : Property) (hp : p ∈ l)
    (hbad : isAllowed att p = false) : scanDiff att l = none := by
  induction l with
  | nil => cases hp
  | cons q rest ih =>
    rw [scanDiff]
    by_cases hv : q.name ∈ volatileNames
    · rw [if_pos hv]
      rcases List.mem_cons.mp hp with h | h
      · subst h
        simp [isAllowed, isVolatile, hv] at hbad
      · exact ih h
    · by_cases hA : q.name ≠ "ATTENDEE" ∨ q.value ≠ att
      · rw [if_neg hv, if_pos hA]
      · rw [if_neg hv, if_neg hA]
        push_neg at hA
        rcases List.mem_cons.mp hp with h | h
        · subst h
          simp [isAllowed, hA.1, hA.2] at hbad
        · rw [ih h]
          rfl

theorem scanDiff_some (att : String) (l : List Property)
    (hall : ∀ p ∈ l, isAllowed att p = true) :
    scanDiff att l = some (l.filter (fun p => !(isVolatile p))) := by
  induction l with
  | nil => simp [scanDiff]
  | cons q rest ih =>
    have hq := hall q (List.mem_cons_self q rest)
    have hrest := ih (fun p hp => hall p (List.mem_cons_of_mem q hp))
    rw [scanDiff]
    by_cases hv : q.name ∈ volatileNames
    · rw [if_pos hv, hrest]
      simp [List.filter_cons, isVolatile, hv]
    · have hqa : q.name = "ATTENDEE" ∧ q.value = att := by
        simp [isAllowed, isVolatile, hv] at hq
        exact hq
      rw [if_neg hv, if_neg (by push_neg; exact hqa), hrest]
      simp [List.filter_cons, isVolatile, hv]

theorem testComponents_fail_name (att : String) (c1 c2 : Component)
    (h : c1.name ≠ c2.name) : testComponents att c1 c2 = (false, false) := by
  simp [testComponents, h]

theorem testComponents_fail_prop (att : String) (c1 c2 : Component) (p : Property)
    (hp : p ∈ propSymmDiff c1.props c2.props) (hbad : isAllowed att p = false) :
    testComponents att c1 c2 = (false, false) := by
  rw [testComponents]
  by_cases hn : c1.name ≠ c2.name
  · rw [if_pos hn]
  · rw [if_neg hn, scanDiff_none att _ p hp hbad]

theorem testComponents_ok (att : String) (c1 c2 : Component)
    (hn : c1.name = c2.name)
    (hall : ∀ p ∈ propSymmDiff c1.props c2.props, isAllowed att p = true)
    (hsub : (subDiff c1.subs c2.subs).isEmpty = true) :
    testComponents att c1 c2 =
      (true, ((propSymmDiff c1.props c2.props).filter (fun p => !(isVolatile p))).isEmpty) := by
  rw [testComponents, if_neg (by simp [hn]), scanDiff_some att _ hall]
  simp [hsub]

theorem testComponents_fail_sub (att : String) (c1 c2 : Component)
    (hn : c1.name = c2.name)
    (hall : ∀ p ∈ propSymmDiff c1.props c2.props, isAllowed att p = true)
    (hsub : (subDiff c1.subs c2.subs).isEmpty = false) :
    testComponents att c1 c2 = (false, false) := by
  rw [testComponents, if_neg (by simp [hn]), scanDiff_some att _ hall]
  simp [hsub]

/-- C1: for two components with the same type name and equal subcomponent
sets, if after discarding volatile-named properties every remaining property
difference is an ATTENDEE property whose value is the tested attendee
identity, the comparator returns (true, false); and if any non-volatile
difference is not such an ATTENDEE property, it returns (false, false)
regardless of any permitted attendee-property change. -/
theorem claim_C1 (att : String) (c1 c2 : Component)
    (hn : c1.name = c2.name)
    (hsub : subDiff c1.subs c2.subs = []) :
    ((((propSymmDiff c1.props c2.props).filter (fun p => !(isVolatile p))) ≠ [] ∧
       ∀ p ∈ (propSymmDiff c1.props c2.props).filter (fun p => !(isVolatile p)),
         p.name = "ATTENDEE" ∧ p.value = att) →
      testComponents att c1 c2 = (true, false)) ∧
    ((∃ p ∈ (propSymmDiff c1.props c2.props).filter (fun p => !(isVolatile p)),
         ¬(p.name = "ATTENDEE" ∧ p.value = att)) →
      testComponents att c1 c2 = (false, false)) := by
  constructor
  · rintro ⟨hne, hatt⟩
    have hall : ∀ p ∈ propSymmDiff c1.props c2.props, isAllowed att p = true := by
      intro p hp
      by_cases hv : isVolatile p
      · simp [isAllowed, hv]
      · have := hatt p (List.mem_filter.mpr ⟨hp, by simp [hv]⟩)
        simp [isAllowed, this.1, this.2]
    rw [testComponents_ok att c1 c2 hn hall (by simp [hsub])]
    obtain ⟨p, hp⟩ := List.exists_mem_of_ne_nil _ hne
    rw [List.isEmpty_eq_false_iff_exists_mem.mpr ⟨p, hp⟩]
  · rintro ⟨p, hp, hbad⟩
    have hmem := (List.mem_filter.mp hp).1
    have hnv : isVolatile p = false := by
      have := (List.mem_filter.mp hp).2
      simpa using this
    refine testComponents_fail_prop att c1 c2 p hmem ?_
    simp only [isAllowed, hnv, Bool.false_or]
    rcases not_and_or.mp hbad with h | h <;> simp [h]

/-- Witness for C1 at a concrete pair: the only non-volatile difference is the
tested attendee's ATTENDEE property, so the comparator accepts but reports an
attendee change. -/
theorem claim_C1_witness :
    testComponents "mailto:a"
      (.mk "VEVENT" [⟨"UID", "1", []⟩, ⟨"ATTENDEE", "mailto:a", []⟩] [])
      (.mk "VEVENT" [⟨"UID", "1", []⟩,
        ⟨"ATTENDEE", "mailto:a", [("PARTSTAT", "ACCEPTED")]⟩] []) = (true, false) :=
  (claim_C1 "mailto:a" _ _ (by rfl) (by rfl)).1 ⟨by decide, by decide⟩

/-- C10: the comparator never inspects property parameters: two components
differing only in the parameters of the tested attendee's own ATTENDEE
property compare as (true, false), whatever the two parameter lists are. -/
theorem claim_C10 (att nm : String) (ss : List Component)
    (l1 l2 : List Property) (par1 par2 : List (String × String))
    (h1 : (⟨"ATTENDEE", att, par1⟩ : Property) ∉ l1 ++ (⟨"ATTENDEE", att, par2⟩ : Property) :: l2)
    (_h2 : (⟨"ATTENDEE", att, par2⟩ : Property) ∉ l1 ++ (⟨"ATTENDEE", att, par1⟩ : Property) :: l2) :
    testComponents att
      (.mk nm (l1 ++ ⟨"ATTENDEE", att, par1⟩ :: l2) ss)
      (.mk nm (l1 ++ ⟨"ATTENDEE", att, par2⟩ :: l2) ss) = (true, false) := by
  set p1 : Property := ⟨"ATTENDEE", att, par1⟩ with hp1
  set p2 : Property := ⟨"ATTENDEE", att, par2⟩ with hp2
  have hdiff : ∀ p ∈ propSymmDiff (l1 ++ p1 :: l2) (l1 ++ p2 :: l2), p = p1 ∨ p = p2 := by
    intro p hp
    rcases List.mem_append.mp hp with h | h
    · have h' := List.mem_filter.mp h
      have hmem := h'.1
      have hnot : p ∉ l1 ++ p2 :: l2 := by simpa using h'.2
      rcases List.mem_append.mp hmem with hl | hl
      · exact absurd (List.mem_append_left _ hl) hnot
      · rcases List.mem_cons.mp hl with hl' | hl'
        · exact Or.inl hl'
        · exact absurd (List.mem_append_right _ (List.mem_cons_of_mem _ hl')) hnot
    · have h' := List.mem_filter.mp h
      have hmem := h'.1
      have hnot : p ∉ l1 ++ p1 :: l2 := by simpa using h'.2
      rcases List.mem_append.mp hmem with hl | hl
      · exact absurd (List.mem_append_left _ hl) hnot
      · rcases List.mem_cons.mp hl with hl' | hl'
        · exact Or.inr hl'
        · exact absurd (List.mem_append_right _ (List.mem_cons_of_mem _ hl')) hnot
  have hall : ∀ p ∈ propSymmDiff (l1 ++ p1 :: l2) (l1 ++ p2 :: l2), isAllowed att p = true := by
    intro p hp
    rcases hdiff p hp with h | h <;> (subst h; simp [isAllowed, hp1, hp2])
  have hp1mem : p1 ∈ propSymmDiff (l1 ++ p1 :: l2) (l1 ++ p2 :: l2) := by
    refine List.mem_append_left _ (List.mem_filter.mpr ⟨?_, by simpa using h1⟩)
    exact List.mem_append_right _ (List.mem_cons_self _ _)
  rw [testComponents_ok att _ _ (by rfl) (by simpa [Component.props] using hall)
    (by simp [Component.subs, subDiff_self])]
  have hp1f : p1 ∈ (propSymmDiff (l1 ++ p1 :: l2) (l1 ++ p2 :: l2)).filter
      (fun p => !(isVolatile p)) :=
    List.mem_filter.mpr ⟨hp1mem, by simp [isVolatile, hp1, volatileNames]⟩
  simp only [Component.props, Component.subs]
  rw [List.isEmpty_eq_false_iff_exists_mem.mpr ⟨p1, hp1f⟩]

/-- Witness for C10 at a concrete pair differing only in the PARTSTAT
parameter of the tested attendee's ATTENDEE property. -/
theorem claim_C10_witness :
    testComponents "mailto:b"
      (.mk "VTODO" [⟨"UID", "7", []⟩, ⟨"ATTENDEE", "mailto:b", [("ROLE", "CHAIR")]⟩] [])
      (.mk "VTODO" [⟨"UID", "7", []⟩,
        ⟨"ATTENDEE", "mailto:b", [("ROLE", "CHAIR"), ("PARTSTAT", "DECLINED")]⟩] [])
      = (true, false) :=
  claim_C10 "mailto:b" "VTODO" [] [⟨"UID", "7", []⟩] []
    [("ROLE", "CHAIR")] [("ROLE", "CHAIR"), ("PARTSTAT", "DECLINED")]
    (by decide) (by decide)

/-! Volatile-named properties never influence the comparator (C6). -/

theorem all_allowed_filter_vol (att : String) (l : List Property) :
    l.all (isAllowed att) = (l.filter (fun q => !(isVolatile q))).all (isAllowed att) := by
  induction l with
  | nil => rfl
  | cons q rest ih =>
    by_cases hv : isVolatile q
    · have hq : isAllowed att q = true := by simp [isAllowed, hv]
      simp [List.filter_cons, hv, hq, ih]
    · simp [List.filter_cons, hv, ih]

theorem exists_false_of_all_false {α : Type} {f : α → Bool} {l : List α}
    (h : l.all f = false) : ∃ x ∈ l, f x = false := by
  by_contra hc
  push_neg at hc
  have hall : l.all f = true := List.all_eq_true.mpr (fun x hx => by
    cases hfx : f x with
    | true => rfl
    | false => exact absurd hfx (hc x hx))
  rw [hall] at h
  cases h

theorem filter_vol_mem_insert (p : Property) (hv : isVolatile p = true)
    (la lb r : List Property) :
    r.filter (fun q => !(isVolatile q) && decide (q ∉ la ++ p :: lb))
      = r.filter (fun q => !(isVolatile q) && decide (q ∉ la ++ lb)) := by
  apply List.filter_congr
  intro q _
  by_cases hvq : isVolatile q
  · simp [hvq]
  · have hne : q ≠ p := by
      intro e
      rw [e] at hvq
      exact hvq hv
    simp [hvq, List.mem_append, List.mem_cons, hne]

theorem filter_vol_if_insert (p : Property) (hv : isVolatile p = true)
    (lb r : List Property) :
    List.filter (fun q => !(isVolatile q))
      (if decide (p ∉ r) = true then p :: List.filter (fun q => decide (q ∉ r)) lb
        else List.filter (fun q => decide (q ∉ r)) lb)
      = List.filter (fun a => !(isVolatile a) && decide (a ∉ r)) lb := by
  split
  · rw [List.filter_cons]
    simp only [hv, Bool.not_true, Bool.false_eq_true, if_false]
    exact List.filter_filter _ _
  · exact List.filter_filter _ _

theorem psd_filter_insert_left (p : Property) (hv : isVolatile p = true)
    (la lb r : List Property) :
    (propSymmDiff (la ++ p :: lb) r).filter (fun q => !(isVolatile q))
      = (propSymmDiff (la ++ lb) r).filter (fun q => !(isVolatile q)) := by
  simp only [propSymmDiff, List.filter_append, List.filter_filter, List.filter_cons, hv,
    Bool.not_true, Bool.false_and, if_false]
  rw [filter_vol_mem_insert p hv la lb r, filter_vol_if_insert p hv lb r]

theorem psd_filter_insert_right (p : Property) (hv : isVolatile p = true)
    (la lb r : List Property) :
    (propSymmDiff r (la ++ p :: lb)).filter (fun q => !(isVolatile q))
      = (propSymmDiff r (la ++ lb)).filter (fun q => !(isVolatile q)) := by
  simp only [propSymmDiff, List.filter_append, List.filter_filter, List.filter_cons, hv,
    Bool.not_true, Bool.false_and, if_false]
  rw [filter_vol_mem_insert p hv la lb r, filter_vol_if_insert p hv lb r]

theorem psd_all_insert_left (att : String) (p : Property) (hv : isVolatile p = true)
    (la lb r : List Property) :
    (propSymmDiff (la ++ p :: lb) r).all (isAllowed att)
      = (propSymmDiff (la ++ lb) r).all (isAllowed att) := by
  rw [all_allowed_filter_vol att (propSymmDiff (la ++ p :: lb) r),
    all_allowed_filter_vol att (propSymmDiff (la ++ lb) r),
    psd_filter_insert_left p hv la lb r]

theorem psd_all_insert_right (att : String) (p : Property) (hv : isVolatile p = true)
    (la lb r : List Property) :
    (propSymmDiff r (la ++ p :: lb)).all (isAllowed att)
      = (propSymmDiff r (la ++ lb)).all (isAllowed att) := by
  rw [all_allowed_filter_vol att (propSymmDiff r (la ++ p :: lb)),
    all_allowed_filter_vol att (propSymmDiff r (la ++ lb)),
    psd_filter_insert_right p hv la lb r]

/-- C6: adding a property whose name is in the volatile ignore list to either
component (equivalently, removing one from it) changes neither boolean of the
component comparator's result. -/
theorem claim_C6 (att : String) (p : Property) (hp : p.name ∈ volatileNames) :
    (∀ (n1 : String) (la lb : List Property) (s1 : List Component) (c2 : Component),
      testComponents att (.mk n1 (la ++ p :: lb) s1) c2
        = testComponents att (.mk n1 (la ++ lb) s1) c2) ∧
    (∀ (c1 : Component) (n2 : String) (la lb : List Property) (s2 : List Component),
      testComponents att c1 (.mk n2 (la ++ p :: lb) s2)
        = testComponents att c1 (.mk n2 (la ++ lb) s2)) := by
  have hv : isVolatile p = true := by simp [isVolatile, hp]
  constructor
  · intro n1 la lb s1 c2
    by_cases hn : n1 = c2.name
    · cases hallb : (propSymmDiff (la ++ lb) c2.props).all (isAllowed att) with
      | false =>
        have hallb' : (propSymmDiff (la ++ p :: lb) c2.props).all (isAllowed att) = false := by
          rw [psd_all_insert_left att p hv la lb c2.props]
          exact hallb
        obtain ⟨q, hq, hbad⟩ := exists_false_of_all_false hallb'
        obtain ⟨q2, hq2, hbad2⟩ := exists_false_of_all_false hallb
        rw [testComponents_fail_prop att (Component.mk n1 (la ++ p :: lb) s1) c2 q hq hbad,
          testComponents_fail_prop att (Component.mk n1 (la ++ lb) s1) c2 q2 hq2 hbad2]
      | true =>
        have hall : ∀ q ∈ propSymmDiff (la ++ lb) c2.props, isAllowed att q = true :=
          List.all_eq_true.mp hallb
        have hall' : ∀ q ∈ propSymmDiff (la ++ p :: lb) c2.props, isAllowed att q = true :=
          List.all_eq_true.mp (by rw [psd_all_insert_left att p hv la lb c2.props]; exact hallb)
        cases hsubE : (subDiff s1 c2.subs).isEmpty with
        | true =>
          rw [testComponents_ok att (Component.mk n1 (la ++ p :: lb) s1) c2 hn hall' hsubE,
            testComponents_ok att (Component.mk n1 (la ++ lb) s1) c2 hn hall hsubE,
            Prod.mk.injEq]
          refine ⟨rfl, ?_⟩
          rw [show (Component.mk n1 (la ++ p :: lb) s1).props = la ++ p :: lb from rfl,
            show (Component.mk n1 (la ++ lb) s1).props = la ++ lb from rfl,
            psd_filter_insert_left p hv la lb c2.props]
        | false =>
          rw [testComponents_fail_sub att (Component.mk n1 (la ++ p :: lb) s1) c2 hn hall' hsubE,
            testComponents_fail_sub att (Component.mk n1 (la ++ lb) s1) c2 hn hall hsubE]
    · rw [testComponents_fail_name att (Component.mk n1 (la ++ p :: lb) s1) c2 hn,
        testComponents_fail_name att (Component.mk n1 (la ++ lb) s1) c2 hn]
  · intro c1 n2 la lb s2
    by_cases hn : c1.name = n2
    · cases hallb : (propSymmDiff c1.props (la ++ lb)).all (isAllowed att) with
      | false =>
        have hallb' : (propSymmDiff c1.props (la ++ p :: lb)).all (isAllowed att) = false := by
          rw [psd_all_insert_right att p hv la lb c1.props]
          exact hallb
        obtain ⟨q, hq, hbad⟩ := exists_false_of_all_false hallb'
        obtain ⟨q2, hq2, hbad2⟩ := exists_false_of_all_false hallb
        rw [testComponents_fail_prop att c1 (Component.mk n2 (la ++ p :: lb) s2) q hq hbad,
          testComponents_fail_prop att c1 (Component.mk n2 (la ++ lb) s2) q2 hq2 hbad2]
      | true =>
        have hall : ∀ q ∈ propSymmDiff c1.props (la ++ lb), isAllowed att q = true :=
          List.all_eq_true.mp hallb
        have hall' : ∀ q ∈ propSymmDiff c1.props (la ++ p :: lb), isAllowed att q = true :=
          List.all_eq_true.mp (by rw [psd_all_insert_right att p hv la lb c1.props]; exact hallb)
        cases hsubE : (subDiff c1.subs s2).isEmpty with
        | true =>
          rw [testComponents_ok att c1 (Component.mk n2 (la ++ p :: lb) s2) hn hall' hsubE,
            testComponents_ok att c1 (Component.mk n2 (la ++ lb) s2) hn hall hsubE,
            Prod.mk.injEq]
          refine ⟨rfl, ?_⟩
          rw [show (Component.mk n2 (la ++ p :: lb) s2).props = la ++ p :: lb from rfl,
            show (Component.mk n2 (la ++ lb) s2).props = la ++ lb from rfl,
            psd_filter_insert_right p hv la lb c1.props]
        | false =>
          rw [testComponents_fail_sub att c1 (Component.mk n2 (la ++ p :: lb) s2) hn hall' hsubE,
            testComponents_fail_sub att c1 (Component.mk n2 (la ++ lb) s2) hn hall hsubE]
    · rw [testComponents_fail_name att c1 (Component.mk n2 (la ++ p :: lb) s2) hn,
        testComponents_fail_name att c1 (Component.mk n2 (la ++ lb) s2) hn]

/-- Witness for C6: adding a SEQUENCE property leaves a concrete comparison
unchanged. -/
theorem claim_C6_witness :
    testComponents "mailto:a"
      (.mk "VEVENT" [⟨"SEQUENCE", "5", []⟩, ⟨"UID", "1", []⟩] [])
      (.mk "VEVENT" [⟨"UID", "1", []⟩] [])
    = testComponents "mailto:a"
      (.mk "VEVENT" [⟨"UID", "1", []⟩] [])
      (.mk "VEVENT" [⟨"UID", "1", []⟩] []) :=
  (claim_C6 "mailto:a" ⟨"SEQUENCE", "5", []⟩ (by decide)).1
    "VEVENT" [] [⟨"UID", "1", []⟩] [] (.mk "VEVENT" [⟨"UID", "1", []⟩] [])

/-! Characterization of the matching loops of `_compareComponents`. -/

theorem all_false_of_mem {α : Type} {f : α → Bool} {l : List α} (x : α)
    (hx : x ∈ l) (hfx : f x = false) : l.all f = false := by
  cases hall : l.all f with
  | false => rfl
  | true =>
    have := List.all_eq_true.mp hall x hx
    rw [hfx] at this
    cases this

theorem all_clean_false_of_pass_false (att : String) (l : List (Component × Component))
    (h : l.all (fun q => (testComponents att q.1 q.2).1) = false) :
    l.all (pairClean att) = false := by
  obtain ⟨x, hx, hfx⟩ := exists_false_of_all_false h
  exact all_false_of_mem x hx (by simp [pairClean, hfx])

theorem runPairs_eq (att : String) (l : List (Component × Component)) :
    runPairs att l
      = (l.all (fun q => (testComponents att q.1 q.2).1), l.all (pairClean att)) := by
  induction l with
  | nil => rfl
  | cons q rest ih =>
    rw [runPairs, ih]
    cases h1 : (testComponents att q.1 q.2).1 with
    | false => simp [List.all_cons, h1, pairClean]
    | true =>
      cases h2 : rest.all (fun q => (testComponents att q.1 q.2).1) with
      | false =>
        have h2c := all_clean_false_of_pass_false att rest h2
        simp [List.all_cons, h1, h2, h2c, pairClean]
      | true => simp [List.all_cons, h1, h2, pairClean]

theorem lookupKV_isSome_of_mem (m : List (CompKey × Component)) (k : CompKey)
    (hk : k ∈ keysOf m) : (lookupKV m k).isSome = true := by
  induction m with
  | nil => simp [keysOf] at hk
  | cons e rest ih =>
    by_cases he : e.1 = k
    · simp [lookupKV, List.find?_cons, he]
    · have hk' : k ∈ keysOf rest := by
        simp only [keysOf, List.map_cons, List.mem_cons] at hk
        rcases hk with h | h
        · exact absurd h.symm he
        · simpa [keysOf] using h
      have := ih hk'
      simp only [lookupKV, List.find?_cons, he, decide_False] at this ⊢
      simpa using this

theorem loop1_char (att : String) (m2 : List (CompKey × Component)) :
    ∀ l : List (CompKey × Component),
      (∀ e ∈ l, (lookupKV m2 e.1).isSome = true) →
      loop1 att m2 l
        = some ((matchedPairs l m2).all (fun q => (testComponents att q.1 q.2).1),
            (matchedPairs l m2).all (pairClean att)) := by
  intro l
  induction l with
  | nil => intro _; rfl
  | cons e rest ih =>
    intro hl
    have he := hl e (List.mem_cons_self e rest)
    obtain ⟨c2, hc2⟩ := Option.isSome_iff_exists.mp he
    have hrest := ih (fun x hx => hl x (List.mem_cons_of_mem e hx))
    simp only [matchedPairs] at hrest ⊢
    rw [loop1]
    simp only [hc2, hrest, List.filterMap_cons, Option.map_some']
    cases h1 : (testComponents att e.2 c2).1 with
    | false =>
      simp [List.all_cons, h1, pairClean]
    | true =>
      cases h2 : (rest.filterMap
          (fun e => (lookupKV m2 e.1).map (fun c2 => (e.2, c2)))).all
          (fun q => (testComponents att q.1 q.2).1) with
      | false =>
        have h2c := all_clean_false_of_pass_false att _ h2
        simp [List.all_cons, h1, h2, h2c, pairClean]
      | true => simp [List.all_cons, h1, h2, pairClean]

theorem loop2_char (att : String) (derive : Option String → Option Component)
    (m2 : List (CompKey × Component)) :
    ∀ l : List CompKey,
      (∀ k ∈ l, (lookupKV m2 k).isSome = true) →
      (∀ k ∈ l, (derive k.2.2).isSome = true) →
      loop2 att derive m2 l
        = some ((derivedPairs derive m2 l).all (fun q => (testComponents att q.1 q.2).1),
            (derivedPairs derive m2 l).all (pairClean att)) := by
  intro l
  induction l with
  | nil => intro _ _; rfl
  | cons k rest ih =>
    intro hl hd
    obtain ⟨c2, hc2⟩ := Option.isSome_iff_exists.mp (hl k (List.mem_cons_self k rest))
    obtain ⟨c1, hc1⟩ := Option.isSome_iff_exists.mp (hd k (List.mem_cons_self k rest))
    have hrest := ih (fun x hx => hl x (List.mem_cons_of_mem k hx))
      (fun x hx => hd x (List.mem_cons_of_mem k hx))
    simp only [derivedPairs] at hrest ⊢
    rw [loop2]
    simp only [hc1, hc2, hrest, List.filterMap_cons]
    cases h1 : (testComponents att c1 c2).1 with
    | false =>
      simp [List.all_cons, h1, pairClean]
    | true =>
      cases h2 : (rest.filterMap (fun k =>
          match derive k.2.2, lookupKV m2 k with
          | some c1, some c2 => some (c1, c2)
          | _, _ => none)).all (fun q => (testComponents att q.1 q.2).1) with
      | false =>
        have h2c := all_clean_false_of_pass_false att _ h2
        simp [List.all_cons, h1, h2, h2c, pairClean]
      | true => simp [List.all_cons, h1, h2, pairClean]

theorem loop2_derive_none (att : String) (derive : Option String → Option Component)
    (m2 : List (CompKey × Component)) :
    ∀ l : List CompKey,
      (∀ k ∈ l, (lookupKV m2 k).isSome = true) →
      (∃ k ∈ l, derive k.2.2 = none) →
      loop2 att derive m2 l = some (false, false) := by
  intro l
  induction l with
  | nil => rintro _ ⟨k, hk, _⟩; cases hk
  | cons k rest ih =>
    rintro hl ⟨k0, hk0, hd0⟩
    rw [loop2]
    cases hdk : derive k.2.2 with
    | none => rfl
    | some c1 =>
      have hk0r : k0 ∈ rest := by
        rcases List.mem_cons.mp hk0 with h | h
        · subst h
          rw [hdk] at hd0
          cases hd0
        · exact h
      obtain ⟨c2, hc2⟩ := Option.isSome_iff_exists.mp (hl k (List.mem_cons_self k rest))
      have hrest := ih (fun x hx => hl x (List.mem_cons_of_mem k hx)) ⟨k0, hk0r, hd0⟩
      simp only [hc2, hrest]
      cases h1 : (testComponents att c1 c2).1 with
      | false => simp [h1]
      | true => simp [h1]

theorem subset_of_filter_nin_nil (l1 l2 : List CompKey)
    (h : l1.filter (fun k => decide (k ∉ l2)) = []) : ∀ k ∈ l1, k ∈ l2 := by
  intro k hk
  by_contra hnk
  have : k ∈ l1.filter (fun k => decide (k ∉ l2)) :=
    List.mem_filter.mpr ⟨hk, by simpa using hnk⟩
  rw [h] at this
  cases this

theorem compareComponents_not_subset (derive : Option String → Option Component)
    (att : String) (cal1 cal2 : Calendar)
    (h : (keysOf (mapComponents cal1)).filter
      (fun k => decide (k ∉ keysOf (mapComponents cal2))) ≠ []) :
    compareComponents derive att cal1 cal2 = some (false, false) := by
  simp only [compareComponents]
  rw [if_pos h]

theorem compareComponents_char (derive : Option String → Option Component)
    (att : String) (cal1 cal2 : Calendar)
    (hsub : (keysOf (mapComponents cal1)).filter
      (fun k => decide (k ∉ keysOf (mapComponents cal2))) = [])
    (hder : ∀ k ∈ (keysOf (mapComponents cal2)).filter
      (fun k => decide (k ∉ keysOf (mapComponents cal1))), (derive k.2.2).isSome = true) :
    compareComponents derive att cal1 cal2
      = some (runPairs att
          (matchedPairs (mapComponents cal1) (mapComponents cal2)
            ++ derivedPairs derive (mapComponents cal2)
              ((keysOf (mapComponents cal2)).filter
                (fun k => decide (k ∉ keysOf (mapComponents cal1)))))) := by
  have hsub' : ∀ k ∈ keysOf (mapComponents cal1), k ∈ keysOf (mapComponents cal2) :=
    subset_of_filter_nin_nil _ _ hsub
  have hl1 : ∀ e ∈ mapComponents cal1, (lookupKV (mapComponents cal2) e.1).isSome = true := by
    intro e he
    exact lookupKV_isSome_of_mem _ _ (hsub' e.1 (List.mem_map_of_mem _ he))
  have hl2 : ∀ k ∈ (keysOf (mapComponents cal2)).filter
      (fun k => decide (k ∉ keysOf (mapComponents cal1))),
      (lookupKV (mapComponents cal2) k).isSome = true := by
    intro k hk
    exact lookupKV_isSome_of_mem _ _ (List.mem_filter.mp hk).1
  simp only [compareComponents]
  rw [if_neg (fun hne => hne hsub), loop1_char att _ _ hl1,
    loop2_char att derive _ _ hl2 hder, runPairs_eq, List.all_append, List.all_append]
  cases h1 : (matchedPairs (mapComponents cal1) (mapComponents cal2)).all
      (fun q => (testComponents att q.1 q.2).1) with
  | false =>
    have h1c := all_clean_false_of_pass_false att _ h1
    simp only [h1c]
    simp
  | true =>
    cases h2 : (derivedPairs derive (mapComponents cal2)
        ((keysOf (mapComponents cal2)).filter
          (fun k => decide (k ∉ keysOf (mapComponents cal1))))).all
        (fun q => (testComponents att q.1 q.2).1) with
    | false =>
      have h2c := all_clean_false_of_pass_false att _ h2
      simp only [h2c]
      simp
    | true => simp

theorem compareComponents_derive_none (derive : Option String → Option Component)
    (att : String) (cal1 cal2 : Calendar)
    (hsub : (keysOf (mapComponents cal1)).filter
      (fun k => decide (k ∉ keysOf (mapComponents cal2))) = [])
    (hnone : ∃ k ∈ (keysOf (mapComponents cal2)).filter
      (fun k => decide (k ∉ keysOf (mapComponents cal1))), derive k.2.2 = none) :
    compareComponents derive att cal1 cal2 = some (false, false) := by
  have hsub' : ∀ k ∈ keysOf (mapComponents cal1), k ∈ keysOf (mapComponents cal2) :=
    subset_of_filter_nin_nil _ _ hsub
  have hl1 : ∀ e ∈ mapComponents cal1, (lookupKV (mapComponents cal2) e.1).isSome = true := by
    intro e he
    exact lookupKV_isSome_of_mem _ _ (hsub' e.1 (List.mem_map_of_mem _ he))
  have hl2 : ∀ k ∈ (keysOf (mapComponents cal2)).filter
      (fun k => decide (k ∉ keysOf (mapComponents cal1))),
      (lookupKV (mapComponents cal2) k).isSome = true := by
    intro k hk
    exact lookupKV_isSome_of_mem _ _ (List.mem_filter.mp hk).1
  simp only [compareComponents]
  rw [if_neg (fun hne => hne hsub), loop1_char att _ _ hl1]
  cases h1 : (matchedPairs (mapComponents cal1) (mapComponents cal2)).all
      (fun q => (testComponents att q.1 q.2).1) with
  | false => simp
  | true =>
    rw [loop2_derive_none att derive _ _ hl2 hnone]
    simp

theorem compareComponents_isSome (derive : Option String → Option Component)
    (att : String) (cal1 cal2 : Calendar) :
    ∃ r, compareComponents derive att cal1 cal2 = some r := by
  by_cases hsub : (keysOf (mapComponents cal1)).filter
      (fun k => decide (k ∉ keysOf (mapComponents cal2))) = []
  · by_cases hder : ∀ k ∈ (keysOf (mapComponents cal2)).filter
        (fun k => decide (k ∉ keysOf (mapComponents cal1))), (derive k.2.2).isSome = true
    · exact ⟨_, compareComponents_char derive att cal1 cal2 hsub hder⟩
    · push_neg at hder
      obtain ⟨k, hk, hd⟩ := hder
      have hdn : derive k.2.2 = none := by
        cases hdk : derive k.2.2 with
        | none => rfl
        | some c =>
          rw [hdk] at hd
          simp at hd
      exact ⟨(false, false),
        compareComponents_derive_none derive att cal1 cal2 hsub ⟨k, hk, hdn⟩⟩
  · exact ⟨(false, false), compareComponents_not_subset derive att cal1 cal2 hsub⟩

/-- C3: when the normalized documents are unequal, the document-level property
and timezone checks pass, and calendar1's component key set is not a subset of
calendar2's, attendeeMerge returns (false, false). -/
theorem claim_C3 (prep : Calendar → Calendar)
    (deriveF : Calendar → Option String → Option Component)
    (att : String) (cal1 cal2 : Calendar)
    (hne : calEq (prep (attendeesView [att] (removeXProperties cal1)))
      (prep (removeXProperties cal2)) = false)
    (hprops : checkVCALENDARProperties (prep (attendeesView [att] (removeXProperties cal1)))
      (prep (removeXProperties cal2)) = true)
    (htz : compareVTIMEZONEs (prep (attendeesView [att] (removeXProperties cal1)))
      (prep (removeXProperties cal2)) = true)
    (hnsub : (keysOf (mapComponents (prep (attendeesView [att] (removeXProperties cal1))))).filter
      (fun k => decide (k ∉ keysOf (mapComponents (prep (removeXProperties cal2))))) ≠ []) :
    attendeeMerge prep deriveF att cal1 cal2 = some (false, false) := by
  rw [attendeeMerge, mergeCompare, if_neg (by simp [hne]), if_neg (by simp [hprops]),
    if_neg (by simp [htz])]
  exact compareComponents_not_subset _ att _ _ hnsub

/-- Witness for C3: a concrete organizer document whose only event is missing
from the attendee's copy is rejected with (false, false). -/
theorem claim_C3_witness :
    attendeeMerge id (fun _ _ => none) "mailto:a"
      ⟨[], [.mk "VEVENT" [⟨"UID", "1", []⟩] []]⟩
      ⟨[], [.mk "VEVENT" [⟨"UID", "2", []⟩] []]⟩ = some (false, false) :=
  claim_C3 id (fun _ _ => none) "mailto:a"
    ⟨[], [.mk "VEVENT" [⟨"UID", "1", []⟩] []]⟩
    ⟨[], [.mk "VEVENT" [⟨"UID", "2", []⟩] []]⟩
    (by
      simp [calEq, compSubset, compMem, compEq, attendeesView, attendeesViewL,
        attendeesViewC, removeXProperties, removeXPropertiesL, removeXPropertiesC]
      decide)
    (by decide) (by decide) (by decide)

/-- C4: under the subset precondition, every key only present in calendar2 is
resolved by deriving an instance from calendar1: if any such derivation
returns none the matcher yields some (false, false) — a result, not an
exception — and if every derivation succeeds the matcher behaves exactly as if
the derived pairs were appended to the matched pairs and compared by the
component comparator, folding their unchanged flags into the running AND. -/
theorem claim_C4 (derive : Option String → Option Component) (att : String)
    (cal1 cal2 : Calendar)
    (hsub : (keysOf (mapComponents cal1)).filter
      (fun k => decide (k ∉ keysOf (mapComponents cal2))) = []) :
    ((∃ k ∈ (keysOf (mapComponents cal2)).filter
        (fun k => decide (k ∉ keysOf (mapComponents cal1))), derive k.2.2 = none) →
      compareComponents derive att cal1 cal2 = some (false, false)) ∧
    ((∀ k ∈ (keysOf (mapComponents cal2)).filter
        (fun k => decide (k ∉ keysOf (mapComponents cal1))), (derive k.2.2).isSome = true) →
      compareComponents derive att cal1 cal2
        = some (runPairs att
            (matchedPairs (mapComponents cal1) (mapComponents cal2)
              ++ derivedPairs derive (mapComponents cal2)
                ((keysOf (mapComponents cal2)).filter
                  (fun k => decide (k ∉ keysOf (mapComponents cal1))))))) :=
  ⟨fun hnone => compareComponents_derive_none derive att cal1 cal2 hsub hnone,
   fun hder => compareComponents_char derive att cal1 cal2 hsub hder⟩

/-- Witness for C4: an attendee copy carrying an extra override instance is
rejected when derivation fails and matched against the derived instance when
it succeeds. -/
theorem claim_C4_witness :
    compareComponents (fun _ => none) "mailto:a"
        ⟨[], [.mk "VEVENT" [⟨"UID", "1", []⟩] []]⟩
        ⟨[], [.mk "VEVENT" [⟨"UID", "1", []⟩] [],
          .mk "VEVENT" [⟨"UID", "1", []⟩, ⟨"RECURRENCE-ID", "r1", []⟩] []]⟩
      = some (false, false) ∧
    compareComponents
        (fun _ => some (.mk "VEVENT" [⟨"UID", "1", []⟩, ⟨"RECURRENCE-ID", "r1", []⟩] []))
        "mailto:a"
        ⟨[], [.mk "VEVENT" [⟨"UID", "1", []⟩] []]⟩
        ⟨[], [.mk "VEVENT" [⟨"UID", "1", []⟩] [],
          .mk "VEVENT" [⟨"UID", "1", []⟩, ⟨"RECURRENCE-ID", "r1", []⟩] []]⟩
      = some (runPairs "mailto:a"
          (matchedPairs
            (mapComponents ⟨[], [.mk "VEVENT" [⟨"UID", "1", []⟩] []]⟩)
            (mapComponents ⟨[], [.mk "VEVENT" [⟨"UID", "1", []⟩] [],
              .mk "VEVENT" [⟨"UID", "1", []⟩, ⟨"RECURRENCE-ID", "r1", []⟩] []]⟩)
            ++ derivedPairs
              (fun _ => some (.mk "VEVENT" [⟨"UID", "1", []⟩, ⟨"RECURRENCE-ID", "r1", []⟩] []))
              (mapComponents ⟨[], [.mk "VEVENT" [⟨"UID", "1", []⟩] [],
                .mk "VEVENT" [⟨"UID", "1", []⟩, ⟨"RECURRENCE-ID", "r1", []⟩] []]⟩)
              ((keysOf (mapComponents ⟨[], [.mk "VEVENT" [⟨"UID", "1", []⟩] [],
                  .mk "VEVENT" [⟨"UID", "1", []⟩, ⟨"RECURRENCE-ID", "r1", []⟩] []]⟩)).filter
                (fun k => decide (k ∉ keysOf
                  (mapComponents ⟨[], [.mk "VEVENT" [⟨"UID", "1", []⟩] []]⟩)))))) :=
  ⟨(claim_C4 (fun _ => none) "mailto:a"
      ⟨[], [.mk "VEVENT" [⟨"UID", "1", []⟩] []]⟩
      ⟨[], [.mk "VEVENT" [⟨"UID", "1", []⟩] [],
        .mk "VEVENT" [⟨"UID", "1", []⟩, ⟨"RECURRENCE-ID", "r1", []⟩] []]⟩
      (by decide)).1 ⟨("VEVENT", some "1", some "r1"), by decide, rfl⟩,
   (claim_C4 (fun _ => some (.mk "VEVENT" [⟨"UID", "1", []⟩, ⟨"RECURRENCE-ID", "r1", []⟩] []))
      "mailto:a"
      ⟨[], [.mk "VEVENT" [⟨"UID", "1", []⟩] []]⟩
      ⟨[], [.mk "VEVENT" [⟨"UID", "1", []⟩] [],
        .mk "VEVENT" [⟨"UID", "1", []⟩, ⟨"RECURRENCE-ID", "r1", []⟩] []]⟩
      (by decide)).2 (by decide)⟩

/-- C9: once the subset check has passed, looking up any of calendar1's keys
in calendar2's map always succeeds, so the error branch of the first matching
loop (the embedded KeyError) is unreachable. -/
theorem claim_C9 (att : String) (cal1 cal2 : Calendar)
    (hsub : (keysOf (mapComponents cal1)).filter
      (fun k => decide (k ∉ keysOf (mapComponents cal2))) = []) :
    (∀ k ∈ keysOf (mapComponents cal1),
      (lookupKV (mapComponents cal2) k).isSome = true) ∧
    loop1 att (mapComponents cal2) (mapComponents cal1) ≠ none := by
  have hsub' := subset_of_filter_nin_nil _ _ hsub
  have hk : ∀ k ∈ keysOf (mapComponents cal1),
      (lookupKV (mapComponents cal2) k).isSome = true :=
    fun k hkk => lookupKV_isSome_of_mem _ _ (hsub' k hkk)
  refine ⟨hk, ?_⟩
  rw [loop1_char att _ _ (fun e he => hk e.1 (List.mem_map_of_mem _ he))]
  simp

/-- Witness for C9 on a concrete pair of documents whose key sets coincide. -/
theorem claim_C9_witness :
    (∀ k ∈ keysOf (mapComponents (⟨[], [.mk "VEVENT" [⟨"UID", "1", []⟩] []]⟩ : Calendar)),
      (lookupKV (mapComponents
        (⟨[], [.mk "VEVENT" [⟨"UID", "1", []⟩,
          ⟨"ATTENDEE", "mailto:a", [("PARTSTAT", "ACCEPTED")]⟩] []]⟩ : Calendar)) k).isSome
        = true) ∧
    loop1 "mailto:a"
      (mapComponents (⟨[], [.mk "VEVENT" [⟨"UID", "1", []⟩,
        ⟨"ATTENDEE", "mailto:a", [("PARTSTAT", "ACCEPTED")]⟩] []]⟩ : Calendar))
      (mapComponents (⟨[], [.mk "VEVENT" [⟨"UID", "1", []⟩] []]⟩ : Calendar)) ≠ none :=
  claim_C9 "mailto:a"
    ⟨[], [.mk "VEVENT" [⟨"UID", "1", []⟩] []]⟩
    ⟨[], [.mk "VEVENT" [⟨"UID", "1", []⟩,
      ⟨"ATTENDEE", "mailto:a", [("PARTSTAT", "ACCEPTED")]⟩] []]⟩
    (by decide)

/-- C8: none of attendeeMerge, the component matcher and the component
comparator can return a failed first boolean together with a true second
boolean: the pair (false, true) is impossible for all three. -/
theorem claim_C8 (prep : Calendar → Calendar)
    (deriveF : Calendar → Option String → Option Component)
    (derive : Option String → Option Component)
    (att : String) (cal1 cal2 : Calendar) (c1 c2 : Component) :
    attendeeMerge prep deriveF att cal1 cal2 ≠ some (false, true) ∧
    compareComponents derive att cal1 cal2 ≠ some (false, true) ∧
    testComponents att c1 c2 ≠ (false, true) := by
  have htc : ∀ (x y : Component), testComponents att x y ≠ (false, true) := by
    intro x y
    rw [testComponents]
    by_cases hn : x.name ≠ y.name
    · rw [if_pos hn]
      simp
    · rw [if_neg hn]
      cases hscan : scanDiff att (propSymmDiff x.props y.props) with
      | none => simp
      | some remaining =>
        by_cases hs : !(subDiff x.subs y.subs).isEmpty
        · simp [hs]
        · simp [hs]
  have hcc : ∀ (d : Option String → Option Component) (a b : Calendar),
      compareComponents d att a b ≠ some (false, true) := by
    intro d a b
    simp only [compareComponents]
    by_cases hsub : (keysOf (mapComponents a)).filter
        (fun k => decide (k ∉ keysOf (mapComponents b))) ≠ []
    · rw [if_pos hsub]
      simp
    · rw [if_neg hsub]
      cases hl : loop1 att (mapComponents b) (mapComponents a) with
      | none => simp
      | some r =>
        obtain ⟨nomis, flag1⟩ := r
        cases nomis with
        | false => simp
        | true =>
          cases hl2 : loop2 att d (mapComponents b)
              ((keysOf (mapComponents b)).filter
                (fun k => decide (k ∉ keysOf (mapComponents a)))) with
          | none => simp
          | some r2 =>
            obtain ⟨nomis2, flag2⟩ := r2
            cases nomis2 with
            | false => simp
            | true => simp
  refine ⟨?_, hcc derive cal1 cal2, htc c1 c2⟩
  rw [attendeeMerge, mergeCompare]
  by_cases h1 : calEq (prep (attendeesView [att] (removeXProperties cal1)))
      (prep (removeXProperties cal2)) = true
  · rw [if_pos h1]
    simp
  · rw [if_neg h1]
    by_cases h2 : checkVCALENDARProperties (prep (attendeesView [att] (removeXProperties cal1)))
        (prep (removeXProperties cal2)) = false
    · rw [if_pos h2]
      simp
    · rw [if_neg h2]
      by_cases h3 : compareVTIMEZONEs (prep (attendeesView [att] (removeXProperties cal1)))
          (prep (removeXProperties cal2)) = false
      · rw [if_pos h3]
        simp
      · rw [if_neg h3]
        exact hcc _ _ _

/-- Witness for C8 at concrete inputs. -/
theorem claim_C8_witness :
    attendeeMerge id (fun _ _ => none) "mailto:a"
      ⟨[], [.mk "VEVENT" [⟨"UID", "1", []⟩] []]⟩ ⟨[], []⟩ ≠ some (false, true) ∧
    compareComponents (fun _ => none) "mailto:a"
      ⟨[], [.mk "VEVENT" [⟨"UID", "1", []⟩] []]⟩ ⟨[], []⟩ ≠ some (false, true) ∧
    testComponents "mailto:a" (.mk "VEVENT" [] []) (.mk "VTODO" [] []) ≠ (false, true) :=
  claim_C8 id (fun _ _ => none) (fun _ => none) "mailto:a"
    ⟨[], [.mk "VEVENT" [⟨"UID", "1", []⟩] []]⟩ ⟨[], []⟩
    (.mk "VEVENT" [] []) (.mk "VTODO" [] [])

/-! Alarm-removal lemmas (C5). -/

theorem alarmFree_removeAlarmsL_aux :
    ∀ (n : Nat) (l : List Component), sizeOf l ≤ n → alarmFreeL (removeAlarmsL l) = true := by
  intro n
  induction n using Nat.strong_induction_on with
  | _ n ih =>
    intro l hl
    cases l with
    | nil => rfl
    | cons c cs =>
      obtain ⟨nm, ps, ss⟩ := c
      have hcs : sizeOf cs < sizeOf (Component.mk nm ps ss :: cs) := by
        simp
        try omega
      have hss : sizeOf ss < sizeOf (Component.mk nm ps ss :: cs) := by
        simp
        try omega
      rw [removeAlarmsL]
      by_cases hval : (Component.mk nm ps ss).name = "VALARM"
      · rw [if_pos hval]
        exact ih (sizeOf cs) (by omega) cs (le_refl _)
      · rw [if_neg hval, removeAlarmsC]
        simp only [alarmFreeL, alarmFreeC]
        rw [ih (sizeOf ss) (by omega) ss (le_refl _),
          ih (sizeOf cs) (by omega) cs (le_refl _)]
        have hnm : nm ≠ "VALARM" := by simpa [Component.name] using hval
        simp [hnm]

theorem removeAlarmsL_mapNth (a : Component) (ha : a.name = "VALARM") :
    ∀ (i : Nat) (l : List Component),
      removeAlarmsL (mapNth (addSub a) i l) = removeAlarmsL l := by
  intro i l
  induction l generalizing i with
  | nil => cases i <;> rfl
  | cons c cs ih =>
    obtain ⟨nm, ps, ss⟩ := c
    obtain ⟨an, aps, ass⟩ := a
    have ha' : an = "VALARM" := ha
    subst ha'
    cases i with
    | zero =>
      rw [mapNth, addSub]
      simp only [removeAlarmsL, Component.name]
      by_cases hnm : nm = "VALARM"
      · simp [hnm]
      · simp only [if_neg hnm, removeAlarmsC]
        simp [removeAlarmsL, Component.name]
    | succ j =>
      rw [mapNth]
      simp only [removeAlarmsL, Component.name]
      by_cases hnm : nm = "VALARM"
      · simp [hnm, ih j]
      · simp [hnm, ih j]

/-- C5: organizerDiff equals the structural equality of the two alarm-stripped
duplicates, the stripped copy is alarm-free at every nesting level, and two
documents identical except for an added VALARM compare as equal. -/
theorem claim_C5 (cal1 cal2 : Calendar) :
    organizerDiff cal1 cal2 = calEq (removeAlarms cal1) (removeAlarms cal2)
    ∧ alarmFreeL (removeAlarms cal1).comps = true
    ∧ ∀ (i : Nat) (a : Component), a.name = "VALARM" →
        organizerDiff cal1 (addAlarmTo cal1 i a) = true := by
  refine ⟨rfl, alarmFree_removeAlarmsL_aux (sizeOf cal1.comps) cal1.comps (le_refl _), ?_⟩
  intro i a ha
  rw [organizerDiff]
  have h : removeAlarms (addAlarmTo cal1 i a) = removeAlarms cal1 := by
    simp only [removeAlarms, addAlarmTo]
    rw [removeAlarmsL_mapNth a ha i cal1.comps]
  rw [h]
  exact calEq_refl _

/-- Witness for C5: adding a VALARM to a concrete event leaves organizerDiff
reporting equality. -/
theorem claim_C5_witness :
    organizerDiff ⟨[], [.mk "VEVENT" [⟨"UID", "1", []⟩] []]⟩
      (addAlarmTo ⟨[], [.mk "VEVENT" [⟨"UID", "1", []⟩] []]⟩ 0 (.mk "VALARM" [] []))
      = true :=
  (claim_C5 ⟨[], [.mk "VEVENT" [⟨"UID", "1", []⟩] []]⟩ ⟨[], []⟩).2.2 0
    (.mk "VALARM" [] []) rfl

/-! Heap lemmas for the stateful embedding (C7). -/

theorem hWrite_length : ∀ (h : List Calendar) (i : Nat) (c : Calendar),
    (hWrite h i c).length = h.length := by
  intro h
  induction h with
  | nil => intro i c; cases i <;> rfl
  | cons d hs ih =>
    intro i c
    cases i with
    | zero => rfl
    | succ j => simp [hWrite, ih]

theorem hRead_append_lt : ∀ (h t : List Calendar) (j : Nat), j < h.length →
    hRead (h ++ t) j = hRead h j := by
  intro h
  induction h with
  | nil =>
    intro t j hj
    exact absurd hj (by simp)
  | cons d hs ih =>
    intro t j hj
    cases j with
    | zero => rfl
    | succ i => exact ih t i (Nat.lt_of_succ_lt_succ hj)

theorem hRead_hWrite_ne : ∀ (h : List Calendar) (i j : Nat) (c : Calendar), i ≠ j →
    hRead (hWrite h i c) j = hRead h j := by
  intro h
  induction h with
  | nil => intro i j c _; cases i <;> rfl
  | cons d hs ih =>
    intro i j c hij
    cases i with
    | zero =>
      cases j with
      | zero => exact absurd rfl hij
      | succ t => rfl
    | succ si =>
      cases j with
      | zero => rfl
      | succ sj => exact ih si sj c (fun e => hij (by rw [e]))

/-- C7: neither stateful operation ever writes to the caller's objects: after
organizerDiffH and attendeeMergeH, the heap cells holding the two
caller-supplied documents are unchanged — every stripping, filtering and
normalization step is applied only to the freshly allocated duplicates. -/
theorem claim_C7 (prep : Calendar → Calendar)
    (deriveF : Calendar → Option String → Option Component) (att : String)
    (h : List Calendar) (r1 r2 : Nat) (hr1 : r1 < h.length) (hr2 : r2 < h.length) :
    (hRead (organizerDiffH h r1 r2).2 r1 = hRead h r1 ∧
     hRead (organizerDiffH h r1 r2).2 r2 = hRead h r2) ∧
    (hRead (attendeeMergeH prep deriveF att h r1 r2).2 r1 = hRead h r1 ∧
     hRead (attendeeMergeH prep deriveF att h r1 r2).2 r2 = hRead h r2) := by
  have horg : ∀ (r : Nat), r < h.length → hRead (organizerDiffH h r1 r2).2 r = hRead h r := by
    intro r hr
    simp only [organizerDiffH]
    rw [hRead_hWrite_ne _ _ _ _ (by simp [hWrite_length]; omega),
      hRead_append_lt _ _ _ (by simp [hWrite_length]; omega),
      hRead_hWrite_ne _ _ _ _ (by omega),
      hRead_append_lt _ _ _ hr]
  have hmer : ∀ (r : Nat), r < h.length →
      hRead (attendeeMergeH prep deriveF att h r1 r2).2 r = hRead h r := by
    intro r hr
    simp only [attendeeMergeH]
    rw [hRead_hWrite_ne _ _ _ _ (by simp [hWrite_length]; omega),
      hRead_hWrite_ne _ _ _ _ (by simp [hWrite_length]; omega),
      hRead_append_lt _ _ _ (by simp [hWrite_length]; omega),
      hRead_hWrite_ne _ _ _ _ (by omega),
      hRead_hWrite_ne _ _ _ _ (by omega),
      hRead_hWrite_ne _ _ _ _ (by omega),
      hRead_append_lt _ _ _ hr]
  exact ⟨⟨horg r1 hr1, horg r2 hr2⟩, ⟨hmer r1 hr1, hmer r2 hr2⟩⟩

/-- Witness for C7 at a concrete two-document heap. -/
theorem claim_C7_witness :
    (hRead (organizerDiffH [⟨[], []⟩, ⟨[], [.mk "VEVENT" [] []]⟩] 0 1).2 0
        = hRead [⟨[], []⟩, ⟨[], [.mk "VEVENT" [] []]⟩] 0 ∧
     hRead (organizerDiffH [⟨[], []⟩, ⟨[], [.mk "VEVENT" [] []]⟩] 0 1).2 1
        = hRead [⟨[], []⟩, ⟨[], [.mk "VEVENT" [] []]⟩] 1) ∧
    (hRead (attendeeMergeH id (fun _ _ => none) "mailto:a"
        [⟨[], []⟩, ⟨[], [.mk "VEVENT" [] []]⟩] 0 1).2 0
        = hRead [⟨[], []⟩, ⟨[], [.mk "VEVENT" [] []]⟩] 0 ∧
     hRead (attendeeMergeH id (fun _ _ => none) "mailto:a"
        [⟨[], []⟩, ⟨[], [.mk "VEVENT" [] []]⟩] 0 1).2 1
        = hRead [⟨[], []⟩, ⟨[], [.mk "VEVENT" [] []]⟩] 1) :=
  claim_C7 id (fun _ _ => none) "mailto:a" [⟨[], []⟩, ⟨[], [.mk "VEVENT" [] []]⟩] 0 1
    (by decide) (by decide)

/-! Lemmas and results for the second boolean of attendeeMerge (C2). -/

theorem bool_eq_false_of_ne_true {b : Bool} (h : ¬ b = true) : b = false := by
  cases b
  · rfl
  · exact absurd rfl h

theorem bool_eq_true_of_ne_false {b : Bool} (h : ¬ b = false) : b = true := by
  cases b
  · exact absurd rfl h
  · rfl

theorem all_mem_of_filter_nil (l1 l2 : List CompKey)
    (h : l1.filter (fun k => decide (k ∉ l2)) = []) :
    (l1.all (fun k => decide (k ∈ l2))) = true :=
  List.all_eq_true.mpr (fun k hk => by
    have := subset_of_filter_nin_nil l1 l2 h k hk
    simpa using this)

theorem all_mem_false_of_filter_ne_nil (l1 l2 : List CompKey)
    (h : l1.filter (fun k => decide (k ∉ l2)) ≠ []) :
    (l1.all (fun k => decide (k ∈ l2))) = false := by
  obtain ⟨k, hk⟩ := List.exists_mem_of_ne_nil _ h
  have h1 := List.mem_filter.mp hk
  refine all_false_of_mem k h1.1 ?_
  have h2 : k ∉ l2 := by simpa using h1.2
  simp [h2]

/-- Counterexample to C2 as stated: for two identical documents nothing
changed at all, yet attendeeMerge returns (true, true) — the second boolean is
true, not false, when nothing changed. -/
theorem claim_C2_counterexample :
    attendeeMerge id (fun _ _ => none) "mailto:a"
        ⟨[], [.mk "VEVENT" [⟨"UID", "1", []⟩, ⟨"ATTENDEE", "mailto:a", []⟩] []]⟩
        ⟨[], [.mk "VEVENT" [⟨"UID", "1", []⟩, ⟨"ATTENDEE", "mailto:a", []⟩] []]⟩
      = some (true, true) ∧
    calEq
      (id (attendeesView ["mailto:a"] (removeXProperties
        ⟨[], [.mk "VEVENT" [⟨"UID", "1", []⟩, ⟨"ATTENDEE", "mailto:a", []⟩] []]⟩)))
      (id (removeXProperties
        ⟨[], [.mk "VEVENT" [⟨"UID", "1", []⟩, ⟨"ATTENDEE", "mailto:a", []⟩] []]⟩))
      = true := by
  have hn1 : id (attendeesView ["mailto:a"] (removeXProperties
      ⟨[], [.mk "VEVENT" [⟨"UID", "1", []⟩, ⟨"ATTENDEE", "mailto:a", []⟩] []]⟩))
      = ⟨[], [.mk "VEVENT" [⟨"UID", "1", []⟩, ⟨"ATTENDEE", "mailto:a", []⟩] []]⟩ := rfl
  have hn2 : id (removeXProperties
      ⟨[], [.mk "VEVENT" [⟨"UID", "1", []⟩, ⟨"ATTENDEE", "mailto:a", []⟩] []]⟩)
      = ⟨[], [.mk "VEVENT" [⟨"UID", "1", []⟩, ⟨"ATTENDEE", "mailto:a", []⟩] []]⟩ := rfl
  have hcal : calEq
      (id (attendeesView ["mailto:a"] (removeXProperties
        ⟨[], [.mk "VEVENT" [⟨"UID", "1", []⟩, ⟨"ATTENDEE", "mailto:a", []⟩] []]⟩)))
      (id (removeXProperties
        ⟨[], [.mk "VEVENT" [⟨"UID", "1", []⟩, ⟨"ATTENDEE", "mailto:a", []⟩] []]⟩))
      = true := by
    rw [hn1, hn2]
    exact calEq_refl _
  exact ⟨by rw [attendeeMerge, mergeCompare, if_pos hcal], hcal⟩

/-- C2 (amended): the second boolean of attendeeMerge means "the attendee made
no effective change": it equals true exactly when the normalized documents are
structurally equal, or all document-level checks pass, every override key is
derivable, and every matched or derived component pair compares completely
unchanged.  In particular it is true, not false, when nothing changed at
all. -/
theorem claim_C2_amended (prep : Calendar → Calendar)
    (deriveF : Calendar → Option String → Option Component)
    (att : String) (cal1 cal2 : Calendar) (a b : Bool)
    (h : attendeeMerge prep deriveF att cal1 cal2 = some (a, b)) :
    b = attendeeUnchangedSpec prep deriveF att cal1 cal2 := by
  rw [attendeeMerge, mergeCompare] at h
  simp only [attendeeUnchangedSpec]
  by_cases h1 : calEq (prep (attendeesView [att] (removeXProperties cal1)))
      (prep (removeXProperties cal2)) = true
  · rw [if_pos h1] at h
    have hb : b = true := (congrArg Prod.snd (Option.some.inj h)).symm
    rw [hb, h1, Bool.true_or]
  · rw [if_neg h1] at h
    rw [bool_eq_false_of_ne_true h1, Bool.false_or]
    by_cases h2 : checkVCALENDARProperties (prep (attendeesView [att] (removeXProperties cal1)))
        (prep (removeXProperties cal2)) = false
    · rw [if_pos h2] at h
      have hb : b = false := (congrArg Prod.snd (Option.some.inj h)).symm
      rw [hb, h2]
      simp
    · rw [if_neg h2] at h
      rw [bool_eq_true_of_ne_false h2, Bool.true_and]
      by_cases h3 : compareVTIMEZONEs (prep (attendeesView [att] (removeXProperties cal1)))
          (prep (removeXProperties cal2)) = false
      · rw [if_pos h3] at h
        have hb : b = false := (congrArg Prod.snd (Option.some.inj h)).symm
        rw [hb, h3]
        simp
      · rw [if_neg h3] at h
        rw [bool_eq_true_of_ne_false h3, Bool.true_and]
        by_cases hsub : (keysOf (mapComponents
            (prep (attendeesView [att] (removeXProperties cal1))))).filter
            (fun k => decide (k ∉ keysOf (mapComponents (prep (removeXProperties cal2))))) = []
        · rw [all_mem_of_filter_nil _ _ hsub, Bool.true_and]
          by_cases hder : ∀ k ∈ (keysOf (mapComponents (prep (removeXProperties cal2)))).filter
              (fun k => decide (k ∉ keysOf (mapComponents
                (prep (attendeesView [att] (removeXProperties cal1)))))),
              ((deriveF (prep (attendeesView [att] (removeXProperties cal1)))) k.2.2).isSome
                = true
          · rw [compareComponents_char _ _ _ _ hsub hder, runPairs_eq] at h
            injection h with hpair
            injection hpair with ha hb
            rw [← hb, List.all_append, List.all_eq_true.mpr hder, Bool.true_and]
          · push_neg at hder
            obtain ⟨k, hk, hknot⟩ := hder
            have hknone : deriveF (prep (attendeesView [att] (removeXProperties cal1))) k.2.2
                = none := by
              cases hdk : deriveF (prep (attendeesView [att] (removeXProperties cal1))) k.2.2 with
              | none => rfl
              | some c =>
                rw [hdk] at hknot
                simp at hknot
            rw [compareComponents_derive_none _ _ _ _ hsub ⟨k, hk, hknone⟩] at h
            have hb : b = false := (congrArg Prod.snd (Option.some.inj h)).symm
            have hders : ((keysOf (mapComponents (prep (removeXProperties cal2)))).filter
                (fun k => decide (k ∉ keysOf (mapComponents
                  (prep (attendeesView [att] (removeXProperties cal1))))))).all
                (fun k => (deriveF (prep (attendeesView [att] (removeXProperties cal1)))
                  k.2.2).isSome) = false :=
              all_false_of_mem k hk (by rw [hknone]; rfl)
            rw [hb, hders]
            simp
        · rw [compareComponents_not_subset _ _ _ _ hsub] at h
          have hb : b = false := (congrArg Prod.snd (Option.some.inj h)).symm
          rw [hb, all_mem_false_of_filter_ne_nil _ _ hsub]
          simp

/-- Witness for the amended C2: at two identical concrete documents the
second boolean and the no-effective-change predicate are both true. -/
theorem claim_C2_witness :
    (true : Bool) = attendeeUnchangedSpec id (fun _ _ => none) "mailto:a"
      ⟨[], [.mk "VEVENT" [⟨"UID", "2", []⟩] []]⟩
      ⟨[], [.mk "VEVENT" [⟨"UID", "2", []⟩] []]⟩ := by
  have hcal : calEq
      (id (attendeesView ["mailto:a"] (removeXProperties
        ⟨[], [.mk "VEVENT" [⟨"UID", "2", []⟩] []]⟩)))
      (id (removeXProperties ⟨[], [.mk "VEVENT" [⟨"UID", "2", []⟩] []]⟩)) = true := by
    rw [show id (attendeesView ["mailto:a"] (removeXProperties
        ⟨[], [.mk "VEVENT" [⟨"UID", "2", []⟩] []]⟩))
        = (⟨[], [.mk "VEVENT" [⟨"UID", "2", []⟩] []]⟩ : Calendar) from rfl,
      show id (removeXProperties ⟨[], [.mk "VEVENT" [⟨"UID", "2", []⟩] []]⟩)
        = (⟨[], [.mk "VEVENT" [⟨"UID", "2", []⟩] []]⟩ : Calendar) from rfl]
    exact calEq_refl _
  exact claim_C2_amended id (fun _ _ => none) "mailto:a"
    ⟨[], [.mk "VEVENT" [⟨"UID", "2", []⟩] []]⟩
    ⟨[], [.mk "VEVENT" [⟨"UID", "2", []⟩] []]⟩ true true
    (by rw [attendeeMerge, mergeCompare, if_pos hcal])

end CalDiff
